import Mathlib

/-!
Verification of the sharded lock-striped map in `src/main.rs`.

The program's data is `type Db = HashMap<i32, String>`, a vector of
`Arc<tokio::sync::Mutex<Db>>` used as the shard pool, a tokio mpsc queue
carrying `Db` snapshots, and a tokio broadcast channel carrying pools.
We embed the pure content of the program: `Db` as an association list with
`HashMap::insert` overwrite semantics, pools as lists of lock identifiers
(cloning an `Arc` copies the identifier; `Arc::new` allocates a fresh one),
a heap assigning to each lock identifier its held-flag and guarded map,
the mutation worker's pass (main.rs lines 105-129), the reconciliation
worker's body (lines 138-165), and the program order of `main`'s startup
steps (lines 84-138).
-/

set_option autoImplicit false

namespace S3

/-- Model of `type Db = HashMap<i32, String>` (main.rs line 53): an
association list with unique keys; keys are mathematical integers holding
i32 values. -/
abbrev Db := List (Int × String)

/-- `HashMap::insert` (line 117): overwrite the entry with the given key if
present, otherwise add the entry. -/
def dbInsert (k : Int) (v : String) : Db → Db
  | [] => [(k, v)]
  | (k', v') :: rest => if k = k' then (k, v) :: rest else (k', v') :: dbInsert k v rest

/-- `HashMap::get`: the value stored at key `k`, if any. -/
def dbGet (k : Int) : Db → Option String
  | [] => none
  | (k', v') :: rest => if k = k' then some v' else dbGet k rest

/-- `HashMap::contains_key`. -/
def dbHasKey (k : Int) : Db → Bool
  | [] => false
  | (k', _) :: rest => k == k' || dbHasKey k rest

/-- Rust release-profile (wrap-around) normalization of an integer into the
i32 range: `4294967296 = 2^32` and `2147483648 = 2^31`. -/
def toI32 (n : Int) : Int := (n + 2147483648) % 4294967296 - 2147483648

/-- `(idx as i32) * random` at line 117: the `usize` index is truncated to
i32 and the product wraps around. -/
def mutKey (idx : Nat) (r : Int) : Int := toI32 (toI32 (Int.ofNat idx) * r)

/-- `format!("value is {}", idx)` at line 116. -/
def mutValue (idx : Nat) : String := "value is " ++ toString idx

/-- The state of one `tokio::sync::Mutex<Db>` allocation: whether some task
currently holds it, and the map it guards. -/
structure LockCell where
  held : Bool
  content : Db
deriving DecidableEq, Repr

/-- The live lock allocations, indexed by lock identifier. -/
abbrev Heap := List LockCell

/-- A shard pool: each slot stores the identifier of the lock its `Arc`
points to. Slots produced by cloning the same `Arc` store the same
identifier. -/
abbrev Pool := List Nat

/-- `let mut map_shards = vec![send_sync_map; shards]` (line 71): the single
`Arc` built at line 61 (identifier 0) is cloned into every one of the
`shards` slots. -/
def initPool (shards : Nat) : Pool := List.replicate shards 0

/-- The heap at startup: one lock (identifier 0) guarding the empty map
(`LAZY_STATIC_SHARED_DATA.clone()` is `HashMap::new()`, lines 49-51, 61). -/
def initHeap : Heap := [⟨false, []⟩]

/-- `vec![Arc::new(tokio::sync::Mutex::new(largest_data)); shards]`
(line 147): `vec!` evaluates its element expression once, so one freshly
allocated lock identifier `newId` is cloned into every slot. -/
def replaceAllPool (shards : Nat) (newId : Nat) : Pool := List.replicate shards newId

/-- The lock identifier stored in slot `i` of a pool. -/
def slotLock (pool : Pool) (i : Nat) : Nat := pool.getD i 0

/-- The map guarded by the lock that slot `i` points to. -/
def slotContent (pool : Pool) (heap : Heap) (i : Nat) : Db :=
  match heap.get? (slotLock pool i) with
  | some cell => cell.content
  | none => []

/-- Whether the lock that slot `i` points to is currently held. -/
def lockHeldAt (pool : Pool) (heap : Heap) (i : Nat) : Bool :=
  match heap.get? (slotLock pool i) with
  | some cell => cell.held
  | none => false

/-- `map_shards[idx].clone().try_lock()` (line 108): succeeds exactly when
the lock the slot points to is not currently held; never waits. -/
def tryLockAt (pool : Pool) (heap : Heap) (i : Nat) : Bool :=
  match heap.get? (slotLock pool i) with
  | some cell => !cell.held
  | none => false

/-- One iteration of the mutation worker's loop body at index `idx`
(lines 108-127): on a successful `try_lock`, insert
`((idx as i32) * r, "value is {idx}")` into the guarded map, emit a copy
(`gaurd.to_owned()`) of the map after the insertion, and release the lock at
scope exit; on a failed `try_lock`, do nothing (`continue`). -/
def mutStep (pool : Pool) (heap : Heap) (r : Int) (idx : Nat) : Heap × Option Db :=
  match heap.get? (slotLock pool idx) with
  | some cell =>
    if cell.held then (heap, none)
    else
      let newDb := dbInsert (mutKey idx r) (mutValue idx) cell.content
      (heap.set (slotLock pool idx) ⟨false, newDb⟩, some newDb)
  | none => (heap, none)

/-- The loop `for idx in 0..map_shards.clone().len()` (line 107), iterating
`mutStep` over the given index list and collecting the emitted snapshots in
order. The random draw at line 113 calls `rng.to_owned().gen::<i32>()` on a
clone of the generator, so the shared generator state never advances and
every successful iteration observes the same drawn value `r`. -/
def mutPassAux (pool : Pool) (r : Int) : List Nat → Heap → Heap × List Db
  | [], heap => (heap, [])
  | idx :: rest, heap =>
    match mutStep pool heap r idx with
    | (heap1, some db) =>
      let next := mutPassAux pool r rest heap1
      (next.1, db :: next.2)
    | (heap1, none) => mutPassAux pool r rest heap1

/-- One full mutation pass over all indices of the pool. -/
def mutPass (pool : Pool) (heap : Heap) (r : Int) : Heap × List Db :=
  mutPassAux pool r (List.range pool.length) heap

/-- The body of the reconciliation task on one received snapshot
(lines 140-162): if the snapshot is strictly larger than the captured
baseline `current_data_length`, build the wholesale replacement pool from the
snapshot and broadcast it; otherwise do nothing. The captured baseline is
never reassigned anywhere in the task, so the second component (the baseline
after the run) is the unchanged `baseline` in both branches. Returns
(content published, baseline after the run), with `none` meaning nothing was
broadcast. -/
def reconOnce (baseline : Nat) (largest : Db) : Option Db × Nat :=
  if baseline < largest.length then (some largest, baseline) else (none, baseline)

/-- The steps of `main` relevant to task startup, in program order. -/
inductive MainEvent where
  | broadcastSend
  | broadcastRecvWait
  | spawnMutationWorker
  | spawnReconWorker
deriving DecidableEq, Repr

/-- Program order of `main`'s startup steps (lines 84, 105, 138): the
`tokio::select!` wait on `map_shards_receiver.recv()` comes first, then the
two `tokio::spawn` calls. `main` itself performs no send on
`map_shards_sender`; the only send in the whole program (line 150) is inside
the reconciliation task, which exists only after `spawnReconWorker` runs. -/
def mainStartupOrder : List MainEvent :=
  [MainEvent.broadcastRecvWait, MainEvent.spawnMutationWorker, MainEvent.spawnReconWorker]

/-- The prefix of a step list that actually executes, given how many
broadcast sends have already happened: a `broadcastRecvWait` step completes
only if at least one send has already executed (at line 84 the sender half
`map_shards_sender` is still alive in `main`'s scope, so `recv` cannot
return a channel-closed error either); steps after a wait that cannot
complete never run. -/
def executedSteps : List MainEvent → Nat → List MainEvent
  | [], _ => []
  | MainEvent.broadcastSend :: rest, sent =>
    MainEvent.broadcastSend :: executedSteps rest (sent + 1)
  | MainEvent.broadcastRecvWait :: rest, sent =>
    if sent = 0 then [] else MainEvent.broadcastRecvWait :: executedSteps rest sent
  | MainEvent.spawnMutationWorker :: rest, sent =>
    MainEvent.spawnMutationWorker :: executedSteps rest sent
  | MainEvent.spawnReconWorker :: rest, sent =>
    MainEvent.spawnReconWorker :: executedSteps rest sent

/-- The spec's description of the key computation: `(i * r) mod 2^32`
reinterpreted as a two's-complement 32-bit signed integer. -/
def specWrapI32 (n : Int) : Int :=
  if n % 2 ^ 32 < 2 ^ 31 then n % 2 ^ 32 else n % 2 ^ 32 - 2 ^ 32

/-! ### Helper lemmas -/

theorem dbGet_dbInsert (k q : Int) (v : String) (db : Db) :
    dbGet q (dbInsert k v db) = if q = k then some v else dbGet q db := by
  induction db with
  | nil => by_cases h : q = k <;> simp [dbInsert, dbGet, h]
  | cons hd tl ih =>
    obtain ⟨k', v'⟩ := hd
    by_cases hk : k = k'
    · subst hk
      by_cases hq : q = k <;> simp [dbInsert, dbGet, hq]
    · by_cases hq : q = k'
      · subst hq
        simp [dbInsert, dbGet, hk, Ne.symm hk]
      · simp [dbInsert, dbGet, hk, hq, ih]

theorem dbHasKey_dbInsert_self (k : Int) (v : String) (db : Db) :
    dbHasKey k (dbInsert k v db) = true := by
  induction db with
  | nil => simp [dbInsert, dbHasKey]
  | cons hd tl ih =>
    obtain ⟨k', v'⟩ := hd
    by_cases hk : k = k' <;> simp [dbInsert, dbHasKey, hk, ih]

theorem length_dbInsert_of_hasKey (k : Int) (v : String) (db : Db)
    (h : dbHasKey k db = true) : (dbInsert k v db).length = db.length := by
  induction db with
  | nil => simp [dbHasKey] at h
  | cons hd tl ih =>
    obtain ⟨k', v'⟩ := hd
    by_cases hk : k = k'
    · simp [dbInsert, hk]
    · simp [dbHasKey, hk] at h
      simp [dbInsert, hk, ih h]

theorem getD_replicate {α : Type} (n i : Nat) (a d : α) (h : i < n) :
    (List.replicate n a).getD i d = a := by
  induction n generalizing i with
  | zero => omega
  | succ m ih =>
    cases i with
    | zero => simp [List.replicate]
    | succ j =>
      simp only [List.replicate, List.getD_cons_succ]
      exact ih j (by omega)

theorem toI32_emod (n : Int) : toI32 n % 4294967296 = n % 4294967296 := by
  unfold toI32
  omega

theorem toI32_congr (a b : Int) (h : a % 4294967296 = b % 4294967296) :
    toI32 a = toI32 b := by
  unfold toI32
  omega

theorem toI32_range (n : Int) : -2147483648 ≤ toI32 n ∧ toI32 n < 2147483648 := by
  unfold toI32
  omega

theorem toI32_eq_specWrapI32 (n : Int) : toI32 n = specWrapI32 n := by
  have h32 : (2 : Int) ^ 32 = 4294967296 := by norm_num
  have h31 : (2 : Int) ^ 31 = 2147483648 := by norm_num
  unfold toI32 specWrapI32
  rw [h32, h31]
  split <;> omega

theorem mutKey_eq_toI32_mul (idx : Nat) (r : Int) :
    mutKey idx r = toI32 (Int.ofNat idx * r) := by
  unfold mutKey
  apply toI32_congr
  rw [Int.mul_emod, toI32_emod, ← Int.mul_emod]

/-! ### Claim theorems -/

/-- C1 fails on the code: the wholesale replacement at main.rs line 147,
`vec![Arc::new(Mutex::new(largest_data)); shards]`, evaluates `Arc::new`
once and clones the same `Arc` into every slot. For `shards = 3` and the
fresh lock (identifier 1) guarding the received content `[]`, slots 0 and 1
of the new pool carry the same lock identifier, and inserting through slot 0
changes the content observed through slot 1 from `[]` to the inserted entry
— the slots are not independent, contradicting the claim. -/
theorem C1_replaceAll_slots_alias :
    slotLock (replaceAllPool 3 1) 0 = slotLock (replaceAllPool 3 1) 1 ∧
    slotContent (replaceAllPool 3 1) [⟨false, []⟩, ⟨false, []⟩] 1 = [] ∧
    slotContent (replaceAllPool 3 1)
      (mutStep (replaceAllPool 3 1) [⟨false, []⟩, ⟨false, []⟩] 5 0).1 1
      = [(0, "value is 0")] := by
  refine ⟨rfl, rfl, ?_⟩
  rfl

/-- C2 fails on the code: `vec![send_sync_map; shards]` at main.rs line 71
clones the single `Arc` of line 61 into every slot. The initial pool does
have 10 slots and empty content, but slots 0 and 1 carry the same lock
identifier, and while the lock reached through slot 0 is held by another
task, `try_lock` through slot 1 fails — the shards are not independently
lockable, contradicting the claim. -/
theorem C2_initPool_slots_alias :
    (initPool 10).length = 10 ∧
    slotContent (initPool 10) initHeap 0 = [] ∧
    slotLock (initPool 10) 0 = slotLock (initPool 10) 1 ∧
    lockHeldAt (initPool 10) [⟨true, []⟩] 0 = true ∧
    tryLockAt (initPool 10) [⟨true, []⟩] 1 = false := by
  refine ⟨rfl, rfl, rfl, rfl, rfl⟩

/-- C3 fails as stated: with baseline 0 and a received snapshot of size 1,
the reconciliation body publishes, yet the baseline after the run is still
0, not 1 — the task never reassigns its captured `current_data_length`. -/
theorem C3_counterexample :
    (reconOnce 0 [(0, "v")]).1 = some [(0, "v")] ∧
    (reconOnce 0 [(0, "v")]).2 = 0 ∧
    (reconOnce 0 [(0, "v")]).2 ≠ 1 := by
  refine ⟨rfl, rfl, ?_⟩
  decide

/-- C3 (amended): for every received snapshot of size S and baseline B, the
reconciliation body publishes a new pool iff S > B, and the remembered
baseline is never modified — it stays B whether or not a publication
happens; in particular when S ≤ B nothing is published and all state is
unchanged. -/
theorem C3_publishes_iff (b : Nat) (db : Db) :
    ((reconOnce b db).1 = some db ↔ b < db.length) ∧
    ((reconOnce b db).1 = none ↔ db.length ≤ b) ∧
    (reconOnce b db).2 = b := by
  unfold reconOnce
  split <;> simp_all

/-- C4: whenever `try_lock` succeeds at index `idx` (the slot's lock is free
with content `cell.content`), the worker inserts exactly the entry
`(mutKey idx r, "value is {idx}")` — the new content maps that key to that
value and agrees with the old content on every other key — and the emitted
snapshot is a copy of the slot's entire content after the insertion; the
heap changes only at that slot's lock. -/
theorem C4_mutation_step (pool : Pool) (heap : Heap) (r : Int) (idx : Nat)
    (cell : LockCell) (hget : heap[slotLock pool idx]? = some cell)
    (hfree : cell.held = false) :
    (mutStep pool heap r idx).2
      = some (dbInsert (mutKey idx r) (mutValue idx) cell.content) ∧
    (mutStep pool heap r idx).1
      = heap.set (slotLock pool idx)
          ⟨false, dbInsert (mutKey idx r) (mutValue idx) cell.content⟩ ∧
    dbGet (mutKey idx r) (dbInsert (mutKey idx r) (mutValue idx) cell.content)
      = some (mutValue idx) ∧
    (∀ q, q ≠ mutKey idx r →
      dbGet q (dbInsert (mutKey idx r) (mutValue idx) cell.content)
        = dbGet q cell.content) := by
  refine ⟨?_, ?_, ?_, ?_⟩
  · simp [mutStep, hget, hfree]
  · simp [mutStep, hget, hfree]
  · simp [dbGet_dbInsert]
  · intro q hq
    simp [dbGet_dbInsert, hq]

/-- Witness for C4 at pool `[0]`, a free empty lock, and draw `7`. -/
theorem C4_witness :
    ([⟨false, []⟩] : Heap)[slotLock [0] 0]? = some ⟨false, []⟩ ∧
    (⟨false, []⟩ : LockCell).held = false ∧
    (mutStep [0] [⟨false, []⟩] 7 0).2
      = some (dbInsert (mutKey 0 7) (mutValue 0) []) :=
  ⟨rfl, rfl, (C4_mutation_step [0] [⟨false, []⟩] 7 0 ⟨false, []⟩ rfl rfl).1⟩

/-- C5: over a pool of three distinct shards (lock identifiers 0, 1, 2) in
which shard 0's lock is held by another task for the whole pass while
shards 1 and 2 are free, the pass skips shard 0 without waiting (`try_lock`
returns immediately and the loop continues), leaves shard 0's content
unchanged, and performs exactly one insertion into each of shards 1 and 2,
emitting exactly those two snapshots. -/
theorem C5_skip_held_shard (db0 db1 db2 : Db) (r : Int) :
    mutPass [0, 1, 2] [⟨true, db0⟩, ⟨false, db1⟩, ⟨false, db2⟩] r
      = ([⟨true, db0⟩,
          ⟨false, dbInsert (mutKey 1 r) (mutValue 1) db1⟩,
          ⟨false, dbInsert (mutKey 2 r) (mutValue 2) db2⟩],
         [dbInsert (mutKey 1 r) (mutValue 1) db1,
          dbInsert (mutKey 2 r) (mutValue 2) db2]) := by
  rfl

/-- C6: running the reconciliation body twice on the same snapshot, given
that the baseline after the first run equals the snapshot's size, produces
no publication on the second run and leaves the baseline unchanged. -/
theorem C6_idempotent (b : Nat) (db : Db)
    (h : (reconOnce b db).2 = db.length) :
    (reconOnce (reconOnce b db).2 db).1 = none ∧
    (reconOnce (reconOnce b db).2 db).2 = (reconOnce b db).2 := by
  have hb : (reconOnce b db).2 = b := by
    unfold reconOnce
    split <;> rfl
  rw [hb] at h ⊢
  unfold reconOnce
  simp [h]

/-- Witness for C6 at baseline 0 and the empty snapshot. -/
theorem C6_witness :
    (reconOnce 0 ([] : Db)).2 = ([] : Db).length ∧
    (reconOnce (reconOnce 0 ([] : Db)).2 ([] : Db)).1 = none :=
  ⟨rfl, (C6_idempotent 0 [] rfl).1⟩

/-- C7: for every shard index and drawn value, the computed key is exactly
`(idx * r) mod 2^32` reinterpreted as a two's-complement 32-bit signed
integer, and it always lies in the i32 range `[-2147483648, 2147483648)` —
an overflowing product wraps around and is never a fault. -/
theorem C7_key_wraps (idx : Nat) (r : Int) :
    mutKey idx r = specWrapI32 (Int.ofNat idx * r) ∧
    -2147483648 ≤ mutKey idx r ∧ mutKey idx r < 2147483648 := by
  constructor
  · rw [mutKey_eq_toI32_mul, toI32_eq_specWrapI32]
  · unfold mutKey
    exact toI32_range _

/-- C8 fails on the code: when `main` reaches the `tokio::select!` wait on
`map_shards_receiver.recv()` (line 84), zero sends on `map_shards_sender`
have executed and the sender half is still alive, so the wait never
completes, and the two `tokio::spawn` calls that come after it in program
order (lines 105 and 138) never run: the executed prefix of the startup
sequence is empty and contains neither spawn step, so neither worker is
ever spawned. -/
theorem C8_workers_never_spawned :
    executedSteps mainStartupOrder 0 = [] ∧
    MainEvent.spawnMutationWorker ∉ executedSteps mainStartupOrder 0 ∧
    MainEvent.spawnReconWorker ∉ executedSteps mainStartupOrder 0 := by
  decide

/-- C9: every pool the program constructs — the initial pool of line 71 and
every wholesale replacement of line 147 — fills all slots with clones of one
`Arc`, so any two in-range slots carry the same lock identifier; hence their
observed contents coincide in every heap, and whenever the lock reached
through slot i is held, `try_lock` through any slot j fails. -/
theorem C9_all_pools_alias (n lid i j : Nat) (hi : i < n) (hj : j < n)
    (heap : Heap) :
    slotLock (initPool n) i = slotLock (initPool n) j ∧
    slotLock (replaceAllPool n lid) i = slotLock (replaceAllPool n lid) j ∧
    slotContent (initPool n) heap i = slotContent (initPool n) heap j ∧
    slotContent (replaceAllPool n lid) heap i
      = slotContent (replaceAllPool n lid) heap j ∧
    (lockHeldAt (initPool n) heap i = true →
      tryLockAt (initPool n) heap j = false) ∧
    (lockHeldAt (replaceAllPool n lid) heap i = true →
      tryLockAt (replaceAllPool n lid) heap j = false) := by
  have h1 : slotLock (initPool n) i = slotLock (initPool n) j := by
    unfold slotLock initPool
    rw [getD_replicate n i 0 0 hi, getD_replicate n j 0 0 hj]
  have h2 : slotLock (replaceAllPool n lid) i = slotLock (replaceAllPool n lid) j := by
    unfold slotLock replaceAllPool
    rw [getD_replicate n i lid 0 hi, getD_replicate n j lid 0 hj]
  refine ⟨h1, h2, ?_, ?_, ?_, ?_⟩
  · unfold slotContent
    rw [h1]
  · unfold slotContent
    rw [h2]
  · unfold lockHeldAt tryLockAt
    rw [← h1]
    cases heap.get? (slotLock (initPool n) i) <;> simp
  · unfold lockHeldAt tryLockAt
    rw [← h2]
    cases heap.get? (slotLock (replaceAllPool n lid) i) <;> simp

/-- Witness for C9 at a pool of two slots and the startup heap. -/
theorem C9_witness :
    (0 : Nat) < 2 ∧ (1 : Nat) < 2 ∧
    slotLock (initPool 2) 0 = slotLock (initPool 2) 1 :=
  ⟨by decide, by decide,
    (C9_all_pools_alias 2 5 0 1 (by decide) (by decide) initHeap).1⟩

/-- C10: at shard index 0 the computed key is 0 for every draw, the inserted
entry is `(0, "value is 0")` regardless of the random value, and a repeated
index-0 insertion never grows the content: once key 0 is present, inserting
it again keeps the size unchanged. -/
theorem C10_index_zero (r1 r2 : Int) (db : Db) :
    mutKey 0 r1 = 0 ∧
    dbInsert (mutKey 0 r1) (mutValue 0) db = dbInsert 0 "value is 0" db ∧
    dbInsert (mutKey 0 r2) (mutValue 0) (dbInsert (mutKey 0 r1) (mutValue 0) db)
      = dbInsert 0 "value is 0" (dbInsert 0 "value is 0" db) ∧
    (dbInsert (mutKey 0 r2) (mutValue 0)
        (dbInsert (mutKey 0 r1) (mutValue 0) db)).length
      = (dbInsert (mutKey 0 r1) (mutValue 0) db).length := by
  have hk1 : mutKey 0 r1 = 0 := by
    rw [mutKey_eq_toI32_mul]
    norm_num [toI32]
  have hk2 : mutKey 0 r2 = 0 := by
    rw [mutKey_eq_toI32_mul]
    norm_num [toI32]
  have hv : mutValue 0 = "value is 0" := rfl
  refine ⟨hk1, by rw [hk1, hv], by rw [hk1, hk2, hv], ?_⟩
  rw [hk1, hk2]
  exact length_dbInsert_of_hasKey 0 (mutValue 0) _
    (dbHasKey_dbInsert_self 0 (mutValue 0) db)

end S3
